import Mathlib

/-!
Verification of the trajectory-calculator core (src/trajectory.py) against its
natural-language specification.

The numeric core is embedded shallowly over the real numbers: Python floats
become `ℝ`, numpy operations become their exact real counterparts, and the
fallible float division inside the drag derivative is additionally rendered
with an explicit `Option` (`safeDiv`) so that the division-by-zero (NaN)
behaviour at zero speed is visible.  `scipy.integrate.odeint` is third-party
library code; per the specification's integration-method latitude ("any
fixed-step explicit ODE solver producing behaviorally equivalent output") it
is modelled as an explicit fixed-step (Euler) solver evaluated at the supplied
time grid, returning one state row per grid point with the first row equal to
the initial state, exactly as scipy documents its output shape.
-/

noncomputable section

/-- The four-variable drag state `(x, y, vx, vy)` unpacked from `state` in
`model` (src/trajectory.py line 24). -/
structure DragState where
  x : ℝ
  y : ℝ
  vx : ℝ
  vy : ℝ

/-- Instantaneous speed `v = np.sqrt(vx**2 + vy**2)` (src/trajectory.py line 25). -/
def speed (s : DragState) : ℝ :=
  Real.sqrt (s.vx ^ 2 + s.vy ^ 2)

/-- The drag derivative function `model(state, t)` of src/trajectory.py lines
23-30, with the closure variables `g`, `air_density`, `wind_speed` made
explicit parameters.  The float divisions `vx / v` and `vy / v` are rendered
as total real division (which the theorems only use away from `v = 0`); see
`modelChecked` for the division-checked reading.  The `t` argument is accepted
(odeint passes it) and unused, as in the source. -/
def model (g air_density wind_speed : ℝ) (state : DragState) (_t : ℝ) : DragState :=
  let v := Real.sqrt (state.vx ^ 2 + state.vy ^ 2)
  { x := state.vx
    y := state.vy
    vx := -0.5 * air_density * v * (v + wind_speed) * (state.vx / v) ^ 2
    vy := -g - 0.5 * air_density * v * (v + wind_speed) * (state.vy / v) ^ 2 }

/-- Division with the zero-divisor failure made explicit: `none` plays the
role of the NaN that float division by zero produces in the source. -/
def safeDiv (a b : ℝ) : Option ℝ :=
  if b = 0 then none else some (a / b)

/-- The same derivative `model` of src/trajectory.py lines 23-30, but with the
two divisions by `v` checked: when the divisor `v` is zero the result is
`none`, mirroring the NaN the unguarded float division produces.  The source
has no guard, so the zero-speed state reaches the division directly. -/
def modelChecked (g air_density wind_speed : ℝ) (state : DragState) (_t : ℝ) :
    Option DragState :=
  let v := Real.sqrt (state.vx ^ 2 + state.vy ^ 2)
  match safeDiv state.vx v, safeDiv state.vy v with
  | some rx, some ry =>
      some { x := state.vx
             y := state.vy
             vx := -0.5 * air_density * v * (v + wind_speed) * rx ^ 2
             vy := -g - 0.5 * air_density * v * (v + wind_speed) * ry ^ 2 }
  | _, _ => none

/-- Componentwise sum of two drag states (vector addition in ℝ⁴). -/
def stateAdd (a b : DragState) : DragState :=
  { x := a.x + b.x, y := a.y + b.y, vx := a.vx + b.vx, vy := a.vy + b.vy }

/-- Scalar multiple of a drag state (scaling in ℝ⁴). -/
def stateSmul (c : ℝ) (a : DragState) : DragState :=
  { x := c * a.x, y := c * a.y, vx := c * a.vx, vy := c * a.vy }

/-- One output row per remaining grid point: records the current state, then
advances it by an explicit Euler step over the next grid interval. -/
def odeintAux (f : DragState → ℝ → DragState) :
    DragState → ℝ → List ℝ → List DragState
  | s, _, [] => [s]
  | s, t0, t1 :: rest =>
      s :: odeintAux f (stateAdd s (stateSmul (t1 - t0) (f s t0))) t1 rest

/-- `scipy.integrate.odeint(model, state0, t)` (src/trajectory.py line 37),
modelled as a fixed-step explicit solver: it returns one state per entry of
the time grid `t`, the first being the initial state `state0`, as scipy
documents and the spec's solver latitude allows. -/
def odeint (f : DragState → ℝ → DragState) (y0 : DragState) :
    List ℝ → List DragState
  | [] => []
  | t0 :: rest => odeintAux f y0 t0 rest

/-- The number of samples of `np.arange(0, 100, dt)`: numpy produces
`ceil((100 - 0) / dt)` evenly spaced values for a positive step. -/
def numSteps (dt : ℝ) : ℕ :=
  ⌈(100 : ℝ) / dt⌉₊

/-- The fixed time grid `np.arange(0, 100, dt)` (src/trajectory.py line 36):
the values `0, dt, 2·dt, ...` strictly below 100. -/
def timeGrid (dt : ℝ) : List ℝ :=
  (List.range (numSteps dt)).map (fun i : ℕ => (i : ℝ) * dt)

/-- `projectile_motion(v0, theta, g, dt, wind_speed, wind_angle, air_density)`
of src/trajectory.py lines 7-40: convert the angle to radians, build the
initial state `[0, 0, vx0, vy0]`, integrate `model` over the fixed grid, and
return the triple `(t, x_position, y_position)` of columns. -/
def projectile_motion (v0 theta g dt wind_speed wind_angle air_density : ℝ) :
    List ℝ × List ℝ × List ℝ :=
  let _ := wind_angle
  let thetaRad := theta * (Real.pi / 180)
  let vx0 := v0 * Real.cos thetaRad
  let vy0 := v0 * Real.sin thetaRad
  let state0 : DragState := { x := 0, y := 0, vx := vx0, vy := vy0 }
  let t := timeGrid dt
  let states := odeint (fun s τ => model g air_density wind_speed s τ) state0 t
  (t, states.map (fun s => s.x), states.map (fun s => s.y))

/-- Modelled from the spec: the Kinematic Engine is described in the
specification (sections 2, 4.1) as the drag-free alternative engine, but no
such engine is present in src/trajectory.py, which contains only the drag
engine.  Per the spec's algorithm: decompose `v0` at angle `theta` (degrees)
into `vx0 = v0·cos θ`, `vy0 = v0·sin θ`; samples sit at `t = k·dt` with
`x = vx0·t`, `y = vy0·t − ½·g·t²` recomputed from the closed form each step;
the loop starts from the origin sample, continues while `y ≥ 0`, and always
appends the terminating sample with `y < 0`.  The loop is realised by its
exit index: for `vy0 > 0`, `g > 0`, `dt > 0` the least `k ≥ 1` with
`y(k·dt) < 0` is `⌊(2·vy0/g)/dt⌋ + 1`, so the samples are `k = 0, ..., N`
with `N` that least index. -/
def kinematic_engine (v0 theta g dt : ℝ) : List (ℝ × ℝ × ℝ) :=
  let thetaRad := theta * (Real.pi / 180)
  let vx0 := v0 * Real.cos thetaRad
  let vy0 := v0 * Real.sin thetaRad
  let N := ⌊(2 * vy0 / g) / dt⌋₊ + 1
  (List.range (N + 1)).map (fun k : ℕ =>
    ((k : ℝ) * dt, vx0 * ((k : ℝ) * dt), vy0 * ((k : ℝ) * dt) - g * ((k : ℝ) * dt) ^ 2 / 2))

/-- The closed-form kinematic solution named by the spec's drag-free sanity
property ("should reduce to the same `x(t) = vx0·t`, `y(t) = vy0·t − ½gt²`"),
written from the spec's formulas, together with its velocity components, as a
candidate exact solution of the drag ODE with `air_density = 0` and
`wind_speed = 0`. -/
def kinSol (g vx0 vy0 : ℝ) (t : ℝ) : DragState :=
  { x := vx0 * t
    y := vy0 * t - g * t ^ 2 / 2
    vx := vx0
    vy := vy0 - g * t }

/-- The spec's shape of a Kinematic Engine output with time step `dt`: at
least two samples, first sample `(0, 0, 0)`, consecutive times differing by
exactly `dt`, strictly increasing times, final vertical position `y < 0` and
second-to-last `y ≥ 0` (the ground crossing is bracketed). -/
def BracketsGround (L : List (ℝ × ℝ × ℝ)) (dt : ℝ) : Prop :=
  2 ≤ L.length ∧
  L.head? = some (0, 0, 0) ∧
  (∀ i : ℕ, i + 1 < L.length →
    (L.getD (i + 1) (0, 0, 0)).1 = (L.getD i (0, 0, 0)).1 + dt) ∧
  (∀ i j : ℕ, i < j → j < L.length →
    (L.getD i (0, 0, 0)).1 < (L.getD j (0, 0, 0)).1) ∧
  (L.getD (L.length - 1) (0, 0, 0)).2.2 < 0 ∧
  0 ≤ (L.getD (L.length - 2) (0, 0, 0)).2.2

/-- The validation-error message shown by `calculate_trajectory`
(src/trajectory.py line 69). -/
def validationMessage : String :=
  "Please enter valid numerical values for input parameters."

/-- `calculate_trajectory` (src/trajectory.py lines 59-69): the five
text-to-float conversions are modelled by `Option ℝ` arguments (`none` is a
failed `float(...)` call, i.e. a `ValueError`).  If every conversion succeeds
the engine runs with the source's default `g = 9.81` and `dt = 0.01`;
otherwise the error dialog text is returned and the engine is never invoked. -/
def calculate_trajectory (v0 theta wind_speed wind_angle air_density : Option ℝ) :
    Except String (List ℝ × List ℝ × List ℝ) :=
  match v0, theta, wind_speed, wind_angle, air_density with
  | some a, some b, some c, some d, some e =>
      Except.ok (projectile_motion a b 9.81 0.01 c d e)
  | _, _, _, _, _ => Except.error validationMessage

end

theorem odeintAux_length (f : DragState → ℝ → DragState) :
    ∀ (ts : List ℝ) (s : DragState) (t0 : ℝ),
      (odeintAux f s t0 ts).length = ts.length + 1 := by
  intro ts
  induction ts with
  | nil => intro s t0; simp [odeintAux]
  | cons t1 rest ih => intro s t0; simp [odeintAux, ih]

theorem odeint_length (f : DragState → ℝ → DragState) (y0 : DragState)
    (ts : List ℝ) : (odeint f y0 ts).length = ts.length := by
  cases ts with
  | nil => simp [odeint]
  | cons t0 rest => simp [odeint, odeintAux_length]

theorem odeint_head (f : DragState → ℝ → DragState) (y0 : DragState)
    (t0 : ℝ) (rest : List ℝ) : (odeint f y0 (t0 :: rest)).head? = some y0 := by
  cases rest <;> simp [odeint, odeintAux]

theorem timeGrid_length (dt : ℝ) : (timeGrid dt).length = numSteps dt := by
  simp only [timeGrid, List.length_map, List.length_range]

theorem numSteps_pos (dt : ℝ) (hdt : 0 < dt) : 0 < numSteps dt :=
  Nat.ceil_pos.mpr (by positivity)

theorem timeGrid_cons (dt : ℝ) (hdt : 0 < dt) :
    ∃ rest, timeGrid dt = 0 :: rest := by
  rcases Nat.exists_eq_succ_of_ne_zero (numSteps_pos dt hdt).ne' with ⟨m, hm⟩
  refine ⟨(List.range m).map (fun i : ℕ => ((i : ℝ) + 1) * dt), ?_⟩
  rw [timeGrid, hm, List.range_succ_eq_map, List.map_cons, List.map_map]
  congr 1
  · simp
  · refine List.map_congr_left ?_
    intro i _
    simp only [Function.comp_apply, Nat.succ_eq_add_one]
    push_cast
    ring

theorem timeGrid_getD (dt : ℝ) (i : ℕ) (h : i < numSteps dt) :
    (timeGrid dt).getD i 0 = (i : ℝ) * dt := by
  have hlen : i < (timeGrid dt).length := by rwa [timeGrid_length]
  rw [List.getD_eq_getElem _ _ hlen]
  simp only [timeGrid, List.getElem_map, List.getElem_range]

/-- C1: for every state with instantaneous speed `v > 0`, the drag derivative
returns exactly `(vx, vy, −½·ρ·v·(v+w)·(vx/v)², −g − ½·ρ·v·(v+w)·(vy/v)²)`,
i.e. the implemented model equals the spec's stated derivative expressions. -/
theorem drag_model_matches_spec (g rho w t : ℝ) (s : DragState)
    (hv : 0 < speed s) :
    model g rho w s t =
      { x := s.vx
        y := s.vy
        vx := -(1 / 2) * rho * speed s * (speed s + w) * (s.vx / speed s) ^ 2
        vy := -g - (1 / 2) * rho * speed s * (speed s + w) * (s.vy / speed s) ^ 2 } := by
  simp only [model, speed, DragState.mk.injEq]
  norm_num

theorem drag_model_matches_spec_witness :
    0 < speed { x := 0, y := 0, vx := 3, vy := 4 } ∧
    model 9.81 1.225 5 { x := 0, y := 0, vx := 3, vy := 4 } 0 =
      { x := (3 : ℝ)
        y := 4
        vx := -(1 / 2) * 1.225 * speed { x := 0, y := 0, vx := 3, vy := 4 } *
          (speed { x := 0, y := 0, vx := 3, vy := 4 } + 5) *
          ((3 : ℝ) / speed { x := 0, y := 0, vx := 3, vy := 4 }) ^ 2
        vy := -9.81 - (1 / 2) * 1.225 * speed { x := 0, y := 0, vx := 3, vy := 4 } *
          (speed { x := 0, y := 0, vx := 3, vy := 4 } + 5) *
          ((4 : ℝ) / speed { x := 0, y := 0, vx := 3, vy := 4 }) ^ 2 } := by
  have hv : 0 < speed { x := 0, y := 0, vx := 3, vy := 4 } := by
    simp only [speed]
    exact Real.sqrt_pos.mpr (by norm_num)
  exact ⟨hv, drag_model_matches_spec 9.81 1.225 5 0 _ hv⟩

/-- C2: for every valid parameter set the drag engine integrates over the full
fixed time grid `0, dt, 2·dt, ... < 100` — the grid covers the whole horizon
and is the same whatever the physical parameters, so integration never
terminates at ground contact — and with `dt = 0.01` it returns exactly 10000
samples. -/
theorem drag_full_grid (v0 theta g dt w wa rho : ℝ) (hdt : 0 < dt) :
    (∀ i : ℕ, i < (projectile_motion v0 theta g dt w wa rho).1.length →
      (projectile_motion v0 theta g dt w wa rho).1.getD i 0 = (i : ℝ) * dt ∧
      (i : ℝ) * dt < 100) ∧
    (100 : ℝ) ≤ ((projectile_motion v0 theta g dt w wa rho).1.length : ℝ) * dt ∧
    (∀ v0' theta' g' w' wa' rho' : ℝ,
      (projectile_motion v0 theta g dt w wa rho).1 =
        (projectile_motion v0' theta' g' dt w' wa' rho').1) ∧
    (projectile_motion v0 theta g 0.01 w wa rho).1.length = 10000 := by
  have htime : (projectile_motion v0 theta g dt w wa rho).1 = timeGrid dt := rfl
  refine ⟨?_, ?_, ?_, ?_⟩
  · intro i hi
    rw [htime, timeGrid_length] at hi
    rw [htime]
    refine ⟨timeGrid_getD dt i hi, ?_⟩
    rw [numSteps] at hi
    exact (lt_div_iff₀ hdt).mp (Nat.lt_ceil.mp hi)
  · rw [htime, timeGrid_length]
    have h1 : (100 : ℝ) / dt ≤ (numSteps dt : ℝ) := Nat.le_ceil _
    exact (div_le_iff₀ hdt).mp h1
  · intro v0' theta' g' w' wa' rho'
    rfl
  · have h001 : (projectile_motion v0 theta g 0.01 w wa rho).1 = timeGrid 0.01 := rfl
    rw [h001, timeGrid_length, numSteps,
      show (100 : ℝ) / 0.01 = 10000 by norm_num]
    norm_num

theorem drag_full_grid_witness :
    (0 : ℝ) < 0.01 ∧
    ((∀ i : ℕ, i < (projectile_motion 20 45 9.81 0.01 0 0 1.225).1.length →
      (projectile_motion 20 45 9.81 0.01 0 0 1.225).1.getD i 0 = (i : ℝ) * 0.01 ∧
      (i : ℝ) * 0.01 < 100) ∧
    (100 : ℝ) ≤ ((projectile_motion 20 45 9.81 0.01 0 0 1.225).1.length : ℝ) * 0.01 ∧
    (∀ v0' theta' g' w' wa' rho' : ℝ,
      (projectile_motion 20 45 9.81 0.01 0 0 1.225).1 =
        (projectile_motion v0' theta' g' 0.01 w' wa' rho').1) ∧
    (projectile_motion 20 45 9.81 0.01 0 0 1.225).1.length = 10000) :=
  ⟨by norm_num, drag_full_grid 20 45 9.81 0.01 0 0 1.225 (by norm_num)⟩

/-- C3: two invocations of `projectile_motion` whose parameters differ only in
`wind_angle` return identical `(time, x_position, y_position)` outputs:
`wind_angle` has no influence on the result. -/
theorem wind_angle_has_no_influence (v0 theta g dt w wa wa' rho : ℝ) :
    projectile_motion v0 theta g dt w wa rho =
      projectile_motion v0 theta g dt w wa' rho := rfl

/-- C7: for every valid parameter set (positive time step), the first sample
of the trajectory returned by `projectile_motion` is exactly
`(t, x, y) = (0, 0, 0)`: time zero at the launch origin. -/
theorem first_sample_origin (v0 theta g dt w wa rho : ℝ) (hdt : 0 < dt) :
    (projectile_motion v0 theta g dt w wa rho).1.head? = some 0 ∧
    (projectile_motion v0 theta g dt w wa rho).2.1.head? = some 0 ∧
    (projectile_motion v0 theta g dt w wa rho).2.2.head? = some 0 := by
  obtain ⟨rest, hrest⟩ := timeGrid_cons dt hdt
  simp only [projectile_motion, hrest]
  refine ⟨rfl, ?_, ?_⟩ <;>
    rw [List.head?_map, odeint_head] <;> rfl

theorem first_sample_origin_witness :
    (0 : ℝ) < 0.01 ∧
    ((projectile_motion 20 45 9.81 0.01 0 0 1.225).1.head? = some 0 ∧
    (projectile_motion 20 45 9.81 0.01 0 0 1.225).2.1.head? = some 0 ∧
    (projectile_motion 20 45 9.81 0.01 0 0 1.225).2.2.head? = some 0) :=
  ⟨by norm_num, first_sample_origin 20 45 9.81 0.01 0 0 1.225 (by norm_num)⟩

/-- C10: for every positive time step, the three lists returned by
`projectile_motion` (time, x, y) have equal length, and that length is at
least 1: the output is never empty since the grid always contains `t = 0`. -/
theorem output_lengths_agree (v0 theta g dt w wa rho : ℝ) (hdt : 0 < dt) :
    (projectile_motion v0 theta g dt w wa rho).1.length =
      (projectile_motion v0 theta g dt w wa rho).2.1.length ∧
    (projectile_motion v0 theta g dt w wa rho).2.1.length =
      (projectile_motion v0 theta g dt w wa rho).2.2.length ∧
    1 ≤ (projectile_motion v0 theta g dt w wa rho).1.length := by
  simp only [projectile_motion]
  refine ⟨?_, ?_, ?_⟩
  · rw [List.length_map, odeint_length]
  · rw [List.length_map, List.length_map]
  · rw [timeGrid_length]
    exact numSteps_pos dt hdt

theorem output_lengths_agree_witness :
    (0 : ℝ) < 0.01 ∧
    ((projectile_motion 20 45 9.81 0.01 0 0 1.225).1.length =
      (projectile_motion 20 45 9.81 0.01 0 0 1.225).2.1.length ∧
    (projectile_motion 20 45 9.81 0.01 0 0 1.225).2.1.length =
      (projectile_motion 20 45 9.81 0.01 0 0 1.225).2.2.length ∧
    1 ≤ (projectile_motion 20 45 9.81 0.01 0 0 1.225).1.length) :=
  ⟨by norm_num, output_lengths_agree 20 45 9.81 0.01 0 0 1.225 (by norm_num)⟩

/-- C8: for every state with `v > 0`, `air_density ≥ 0` and `wind_speed ≥ 0`,
the drag engine's horizontal acceleration `dvx/dt` is `≤ 0` — in particular
also when `vx < 0`: squaring `(vx/v)` loses the sign of the velocity
component, so the drag term never opposes leftward motion. -/
theorem drag_accel_nonpositive (g rho w t : ℝ) (s : DragState)
    (hv : 0 < speed s) (hrho : 0 ≤ rho) (hw : 0 ≤ w) :
    (model g rho w s t).vx ≤ 0 := by
  have hval : (model g rho w s t).vx =
      -(0.5 * rho * speed s * (speed s + w) * (s.vx / speed s) ^ 2) := by
    simp only [model, speed]
    ring
  have h1 : (0 : ℝ) ≤ 0.5 * rho := by linarith
  have h2 : 0 ≤ 0.5 * rho * speed s := mul_nonneg h1 hv.le
  have h3 : 0 ≤ 0.5 * rho * speed s * (speed s + w) :=
    mul_nonneg h2 (by linarith)
  have h4 : 0 ≤ 0.5 * rho * speed s * (speed s + w) * (s.vx / speed s) ^ 2 :=
    mul_nonneg h3 (sq_nonneg _)
  rw [hval]
  linarith

theorem drag_accel_nonpositive_witness :
    0 < speed { x := 0, y := 0, vx := -3, vy := 4 } ∧ (0 : ℝ) ≤ 1.225 ∧
    (0 : ℝ) ≤ 5 ∧ (model 9.81 1.225 5 { x := 0, y := 0, vx := -3, vy := 4 } 0).vx ≤ 0 := by
  have hv : 0 < speed { x := 0, y := 0, vx := -3, vy := 4 } := by
    simp only [speed]
    exact Real.sqrt_pos.mpr (by norm_num)
  exact ⟨hv, by norm_num, by norm_num,
    drag_accel_nonpositive 9.81 1.225 5 0 _ hv (by norm_num) (by norm_num)⟩

/-- C9: whenever any of the five text-to-float conversions fails (`none`),
`calculate_trajectory` reports the validation-error dialog text and the engine
is never invoked; when all five succeed the engine runs on the converted
values with the source's defaults `g = 9.81`, `dt = 0.01`. -/
theorem validation_before_engine (v0 theta w wa rho : Option ℝ) :
    ((v0 = none ∨ theta = none ∨ w = none ∨ wa = none ∨ rho = none) →
      calculate_trajectory v0 theta w wa rho = Except.error validationMessage) ∧
    (∀ a b c d e : ℝ, v0 = some a → theta = some b → w = some c →
      wa = some d → rho = some e →
      calculate_trajectory v0 theta w wa rho =
        Except.ok (projectile_motion a b 9.81 0.01 c d e)) := by
  constructor
  · intro h
    rcases v0 with _ | a <;> rcases theta with _ | b <;> rcases w with _ | c <;>
      rcases wa with _ | d <;> rcases rho with _ | e <;>
      simp_all [calculate_trajectory]
  · intro a b c d e h1 h2 h3 h4 h5
    subst h1; subst h2; subst h3; subst h4; subst h5
    rfl

theorem validation_before_engine_witness :
    calculate_trajectory none (some 45) (some 0) (some 0) (some 1.225) =
      Except.error validationMessage ∧
    calculate_trajectory (some 20) (some 45) (some 0) (some 0) (some 1.225) =
      Except.ok (projectile_motion 20 45 9.81 0.01 0 0 1.225) :=
  ⟨(validation_before_engine none (some 45) (some 0) (some 0) (some 1.225)).1
      (Or.inl rfl),
    (validation_before_engine (some 20) (some 45) (some 0) (some 0)
      (some 1.225)).2 20 45 0 0 1.225 rfl rfl rfl rfl rfl⟩

theorem kinematic_engine_length (v0 theta g dt : ℝ) :
    (kinematic_engine v0 theta g dt).length =
      ⌊2 * (v0 * Real.sin (theta * (Real.pi / 180))) / g / dt⌋₊ + 2 := by
  simp only [kinematic_engine, List.length_map, List.length_range]

theorem kinematic_engine_getD (v0 theta g dt : ℝ) (i : ℕ)
    (h : i < (kinematic_engine v0 theta g dt).length) :
    (kinematic_engine v0 theta g dt).getD i (0, 0, 0) =
      ((i : ℝ) * dt,
        v0 * Real.cos (theta * (Real.pi / 180)) * ((i : ℝ) * dt),
        v0 * Real.sin (theta * (Real.pi / 180)) * ((i : ℝ) * dt) -
          g * ((i : ℝ) * dt) ^ 2 / 2) := by
  rw [List.getD_eq_getElem _ _ h]
  simp only [kinematic_engine, List.getElem_map, List.getElem_range]

theorem kinematic_engine_head (v0 theta g dt : ℝ) :
    (kinematic_engine v0 theta g dt).head? = some (0, 0, 0) := by
  simp only [kinematic_engine, List.range_succ_eq_map, List.map_cons,
    List.head?_cons, Option.some.injEq, Prod.mk.injEq]
  norm_num

/-- C6: spec-modelled — for every valid launch with `0 < theta < 180`
(and positive `v0`, `g`, `dt`), the Kinematic Engine produces a strictly
increasing time sequence with fixed step `dt`, begins at the origin sample
`(0, 0, 0)`, and ends at the first sample whose vertical position is
negative: the final sample has `y < 0` while the second-to-last has
`y ≥ 0`. -/
theorem kinematic_brackets_ground (v0 theta g dt : ℝ)
    (hv : 0 < v0) (hg : 0 < g) (hdt : 0 < dt)
    (ht1 : 0 < theta) (ht2 : theta < 180) :
    BracketsGround (kinematic_engine v0 theta g dt) dt := by
  have hpi : (0 : ℝ) < Real.pi / 180 := by positivity
  have ha : 0 < theta * (Real.pi / 180) := by positivity
  have hb : theta * (Real.pi / 180) < Real.pi := by
    calc theta * (Real.pi / 180) < 180 * (Real.pi / 180) :=
          mul_lt_mul_of_pos_right ht2 hpi
      _ = Real.pi := by ring
  have hsin : 0 < Real.sin (theta * (Real.pi / 180)) :=
    Real.sin_pos_of_pos_of_lt_pi ha hb
  have hvy0 : 0 < v0 * Real.sin (theta * (Real.pi / 180)) := mul_pos hv hsin
  have hlen : (kinematic_engine v0 theta g dt).length =
      ⌊2 * (v0 * Real.sin (theta * (Real.pi / 180))) / g / dt⌋₊ + 2 :=
    kinematic_engine_length v0 theta g dt
  have hMle : (⌊2 * (v0 * Real.sin (theta * (Real.pi / 180))) / g / dt⌋₊ : ℝ) * dt ≤
      2 * (v0 * Real.sin (theta * (Real.pi / 180))) / g := by
    have h1 : (⌊2 * (v0 * Real.sin (theta * (Real.pi / 180))) / g / dt⌋₊ : ℝ) ≤
        2 * (v0 * Real.sin (theta * (Real.pi / 180))) / g / dt :=
      Nat.floor_le (by positivity)
    exact (le_div_iff₀ hdt).mp h1
  have hMgt : 2 * (v0 * Real.sin (theta * (Real.pi / 180))) / g <
      ((⌊2 * (v0 * Real.sin (theta * (Real.pi / 180))) / g / dt⌋₊ : ℝ) + 1) * dt := by
    have h1 : 2 * (v0 * Real.sin (theta * (Real.pi / 180))) / g / dt <
        (⌊2 * (v0 * Real.sin (theta * (Real.pi / 180))) / g / dt⌋₊ : ℝ) + 1 :=
      Nat.lt_floor_add_one _
    exact (div_lt_iff₀ hdt).mp h1
  have hg2A : 2 * (v0 * Real.sin (theta * (Real.pi / 180))) <
      g * (((⌊2 * (v0 * Real.sin (theta * (Real.pi / 180))) / g / dt⌋₊ : ℝ) + 1) * dt) := by
    have := (div_lt_iff₀ hg).mp hMgt
    linarith [this]
  have hg2B : g * ((⌊2 * (v0 * Real.sin (theta * (Real.pi / 180))) / g / dt⌋₊ : ℝ) * dt) ≤
      2 * (v0 * Real.sin (theta * (Real.pi / 180))) := by
    have := (le_div_iff₀ hg).mp hMle
    linarith [this]
  refine ⟨?_, kinematic_engine_head v0 theta g dt, ?_, ?_, ?_, ?_⟩
  · rw [hlen]
    omega
  · intro i hi
    rw [hlen] at hi
    rw [kinematic_engine_getD v0 theta g dt (i + 1) (by rw [hlen]; omega),
      kinematic_engine_getD v0 theta g dt i (by rw [hlen]; omega)]
    dsimp only
    push_cast
    ring
  · intro i j hij hj
    rw [hlen] at hj
    rw [kinematic_engine_getD v0 theta g dt i (by rw [hlen]; omega),
      kinematic_engine_getD v0 theta g dt j (by rw [hlen]; omega)]
    dsimp only
    have hcast : (i : ℝ) < (j : ℝ) := by exact_mod_cast hij
    exact mul_lt_mul_of_pos_right hcast hdt
  · rw [hlen,
      show ⌊2 * (v0 * Real.sin (theta * (Real.pi / 180))) / g / dt⌋₊ + 2 - 1 =
        ⌊2 * (v0 * Real.sin (theta * (Real.pi / 180))) / g / dt⌋₊ + 1 from rfl,
      kinematic_engine_getD v0 theta g dt _ (by rw [hlen]; omega)]
    dsimp only
    push_cast
    have hbpos : (0 : ℝ) <
        ((⌊2 * (v0 * Real.sin (theta * (Real.pi / 180))) / g / dt⌋₊ : ℝ) + 1) * dt := by
      positivity
    nlinarith [mul_pos (by linarith [hg2A] : (0 : ℝ) <
      g * (((⌊2 * (v0 * Real.sin (theta * (Real.pi / 180))) / g / dt⌋₊ : ℝ) + 1) * dt) -
        2 * (v0 * Real.sin (theta * (Real.pi / 180)))) hbpos]
  · rw [hlen,
      show ⌊2 * (v0 * Real.sin (theta * (Real.pi / 180))) / g / dt⌋₊ + 2 - 2 =
        ⌊2 * (v0 * Real.sin (theta * (Real.pi / 180))) / g / dt⌋₊ from rfl,
      kinematic_engine_getD v0 theta g dt _ (by rw [hlen]; omega)]
    dsimp only
    have hcnn : (0 : ℝ) ≤
        (⌊2 * (v0 * Real.sin (theta * (Real.pi / 180))) / g / dt⌋₊ : ℝ) * dt := by
      positivity
    nlinarith [mul_nonneg hcnn (by linarith [hg2B] : (0 : ℝ) ≤
      2 * (v0 * Real.sin (theta * (Real.pi / 180))) -
        g * ((⌊2 * (v0 * Real.sin (theta * (Real.pi / 180))) / g / dt⌋₊ : ℝ) * dt))]

theorem kinematic_brackets_ground_witness :
    (0 : ℝ) < 20 ∧ (0 : ℝ) < 9.81 ∧ (0 : ℝ) < 0.01 ∧ (0 : ℝ) < 45 ∧
    (45 : ℝ) < 180 ∧ BracketsGround (kinematic_engine 20 45 9.81 0.01) 0.01 :=
  ⟨by norm_num, by norm_num, by norm_num, by norm_num, by norm_num,
    kinematic_brackets_ground 20 45 9.81 0.01 (by norm_num) (by norm_num)
      (by norm_num) (by norm_num) (by norm_num)⟩

/-- C5: with `air_density = 0` and `wind_speed = 0`, and for every launch with
`vx0 ≠ 0` (so the speed stays positive along the candidate trajectory), the
closed-form kinematics `x(t) = vx0·t`, `y(t) = vy0·t − ½·g·t²` solve the drag
engine's ODE exactly from the initial state `(0, 0, vx0, vy0)`: every
component of `kinSol` has, at every time, the derivative prescribed by
`model` with zero air density and wind speed. -/
theorem drag_reduces_to_kinematics (g vx0 vy0 : ℝ) (h : vx0 ≠ 0) :
    kinSol g vx0 vy0 0 = { x := 0, y := 0, vx := vx0, vy := vy0 } ∧
    (∀ t : ℝ, 0 < speed (kinSol g vx0 vy0 t)) ∧
    (∀ t : ℝ, HasDerivAt (fun τ : ℝ => (kinSol g vx0 vy0 τ).x)
      ((model g 0 0 (kinSol g vx0 vy0 t) t).x) t) ∧
    (∀ t : ℝ, HasDerivAt (fun τ : ℝ => (kinSol g vx0 vy0 τ).y)
      ((model g 0 0 (kinSol g vx0 vy0 t) t).y) t) ∧
    (∀ t : ℝ, HasDerivAt (fun τ : ℝ => (kinSol g vx0 vy0 τ).vx)
      ((model g 0 0 (kinSol g vx0 vy0 t) t).vx) t) ∧
    (∀ t : ℝ, HasDerivAt (fun τ : ℝ => (kinSol g vx0 vy0 τ).vy)
      ((model g 0 0 (kinSol g vx0 vy0 t) t).vy) t) := by
  refine ⟨?_, ?_, ?_, ?_, ?_, ?_⟩
  · simp [kinSol]
  · intro t
    have h2 : 0 < vx0 ^ 2 := (sq_nonneg vx0).lt_of_ne (Ne.symm (pow_ne_zero 2 h))
    have h3 : 0 < vx0 ^ 2 + (vy0 - g * t) ^ 2 :=
      add_pos_of_pos_of_nonneg h2 (sq_nonneg _)
    simp only [speed, kinSol]
    exact Real.sqrt_pos.mpr h3
  · intro t
    have hx : HasDerivAt (fun τ : ℝ => vx0 * τ) vx0 t := by
      simpa using (hasDerivAt_id t).const_mul vx0
    have hval : (model g 0 0 (kinSol g vx0 vy0 t) t).x = vx0 := rfl
    rw [show (fun τ : ℝ => (kinSol g vx0 vy0 τ).x) = fun τ : ℝ => vx0 * τ
      from rfl, hval]
    exact hx
  · intro t
    have h1 : HasDerivAt (fun τ : ℝ => vy0 * τ) vy0 t := by
      simpa using (hasDerivAt_id t).const_mul vy0
    have h2 : HasDerivAt (fun τ : ℝ => τ ^ 2) (2 * t) t := by
      simpa using hasDerivAt_pow 2 t
    have h3 : HasDerivAt (fun τ : ℝ => g * τ ^ 2 / 2) (g * (2 * t) / 2) t :=
      (h2.const_mul g).div_const 2
    have h4 := h1.sub h3
    have hval : (model g 0 0 (kinSol g vx0 vy0 t) t).y = vy0 - g * (2 * t) / 2 := by
      show (kinSol g vx0 vy0 t).vy = _
      simp only [kinSol]
      ring
    rw [show (fun τ : ℝ => (kinSol g vx0 vy0 τ).y) =
      fun τ : ℝ => vy0 * τ - g * τ ^ 2 / 2 from rfl, hval]
    exact h4
  · intro t
    have hval : (model g 0 0 (kinSol g vx0 vy0 t) t).vx = 0 := by
      simp only [model]
      ring
    rw [show (fun τ : ℝ => (kinSol g vx0 vy0 τ).vx) = fun _ : ℝ => vx0
      from rfl, hval]
    exact hasDerivAt_const t vx0
  · intro t
    have h1 : HasDerivAt (fun τ : ℝ => vy0 - g * τ) (0 - g * 1) t :=
      (hasDerivAt_const t vy0).sub ((hasDerivAt_id t).const_mul g)
    have hval : (model g 0 0 (kinSol g vx0 vy0 t) t).vy = 0 - g * 1 := by
      simp only [model]
      ring
    rw [show (fun τ : ℝ => (kinSol g vx0 vy0 τ).vy) = fun τ : ℝ => vy0 - g * τ
      from rfl, hval]
    exact h1

theorem drag_reduces_to_kinematics_witness :
    (3 : ℝ) ≠ 0 ∧
    (kinSol 9.81 3 4 0 = { x := 0, y := 0, vx := 3, vy := 4 } ∧
    (∀ t : ℝ, 0 < speed (kinSol 9.81 3 4 t)) ∧
    (∀ t : ℝ, HasDerivAt (fun τ : ℝ => (kinSol 9.81 3 4 τ).x)
      ((model 9.81 0 0 (kinSol 9.81 3 4 t) t).x) t) ∧
    (∀ t : ℝ, HasDerivAt (fun τ : ℝ => (kinSol 9.81 3 4 τ).y)
      ((model 9.81 0 0 (kinSol 9.81 3 4 t) t).y) t) ∧
    (∀ t : ℝ, HasDerivAt (fun τ : ℝ => (kinSol 9.81 3 4 τ).vx)
      ((model 9.81 0 0 (kinSol 9.81 3 4 t) t).vx) t) ∧
    (∀ t : ℝ, HasDerivAt (fun τ : ℝ => (kinSol 9.81 3 4 τ).vy)
      ((model 9.81 0 0 (kinSol 9.81 3 4 t) t).vy) t)) :=
  ⟨by norm_num, drag_reduces_to_kinematics 9.81 3 4 (by norm_num)⟩

/-- C4: there is an input state with `vx = 0` and `vy = 0` (so `v = 0`) at
which the drag derivative performs an unguarded division by zero: the
error/NaN branch of the division-checked reading is reached, whatever the
physical parameters. -/
theorem drag_model_unguarded_singularity (g rho w t : ℝ) :
    ∃ s : DragState, s.vx = 0 ∧ s.vy = 0 ∧ modelChecked g rho w s t = none := by
  refine ⟨{ x := 1, y := 2, vx := 0, vy := 0 }, rfl, rfl, ?_⟩
  norm_num [modelChecked, safeDiv]
